import Mathlib

/-!
Shallow embedding of the `cross` build-orchestration tool
(source files `src/main.rs` and `src/cargo.rs`).

Rust strings are modelled as Lean `String`s; the Rust string primitives
`str::contains` and `str::starts_with` are modelled on the underlying
character lists. Paths (`PathBuf`) are modelled as lists of path
components. Environment reads and external collaborators (the compiler's
target list, the toolchain manager, the container runtime, the
pass-through executor) are modelled as explicit parameters and oracles,
following the structure of the code.
-/

namespace Cross

/-- Model of Rust `str::starts_with` (string pattern): the pattern's
characters are a prefix of the subject's characters. -/
def sstartsWith (s p : String) : Bool := p.data.isPrefixOf s.data

/-- Helper for `scontains`: `p` occurs as a contiguous run in the list. -/
def isSubstrAux (p : List Char) : List Char → Bool
  | [] => p.isEmpty
  | c :: t => p.isPrefixOf (c :: t) || isSubstrAux p t

/-- Model of Rust `str::contains` (string pattern): case-sensitive
contiguous-substring test. -/
def scontains (s p : String) : Bool := isSubstrAux p.data s.data

/-- `Host` enum from `src/main.rs` lines 31-55: the closed set of
recognized host triples plus the open `Other` catch-all. -/
inductive Host where
  | Other (s : String)
  | X86_64AppleDarwin
  | Aarch64AppleDarwin
  | X86_64UnknownLinuxGnu
  | Aarch64UnknownLinuxGnu
  | X86_64UnknownLinuxMusl
  | Aarch64UnknownLinuxMusl
  | X86_64PcWindowsMsvc
deriving DecidableEq

/-- `Host::triple` (`src/main.rs` lines 96-107). -/
def Host.triple : Host → String
  | .X86_64AppleDarwin => "x86_64-apple-darwin"
  | .Aarch64AppleDarwin => "aarch64-apple-darwin"
  | .X86_64UnknownLinuxGnu => "x86_64-unknown-linux-gnu"
  | .Aarch64UnknownLinuxGnu => "aarch64-unknown-linux-gnu"
  | .X86_64UnknownLinuxMusl => "x86_64-unknown-linux-musl"
  | .Aarch64UnknownLinuxMusl => "aarch64-unknown-linux-musl"
  | .X86_64PcWindowsMsvc => "x86_64-pc-windows-msvc"
  | .Other s => s

/-- `impl From<&str> for Host` (`src/main.rs` lines 110-123). -/
def Host.ofStr (s : String) : Host :=
  if s = "x86_64-apple-darwin" then .X86_64AppleDarwin
  else if s = "x86_64-unknown-linux-gnu" then .X86_64UnknownLinuxGnu
  else if s = "x86_64-unknown-linux-musl" then .X86_64UnknownLinuxMusl
  else if s = "x86_64-pc-windows-msvc" then .X86_64PcWindowsMsvc
  else if s = "aarch64-apple-darwin" then .Aarch64AppleDarwin
  else if s = "aarch64-unknown-linux-gnu" then .Aarch64UnknownLinuxGnu
  else if s = "aarch64-unknown-linux-musl" then .Aarch64UnknownLinuxMusl
  else .Other s

/-- `Target` enum from `src/main.rs` lines 125-130. The Rust type derives
`PartialEq`, `Eq` and `Hash` structurally (variant discriminant first,
then the `triple` field); Lean's propositional equality on this inductive
coincides with that derived equality. -/
inductive Target where
  | BuiltIn (triple : String)
  | Custom (triple : String)
deriving DecidableEq

/-- `Target::triple` (`src/main.rs` lines 145-150). -/
def Target.triple : Target → String
  | .BuiltIn t => t
  | .Custom t => t

/-- Explicit transcription of the `PartialEq` implementation that
`#[derive(PartialEq)]` generates for `Target`: equal variant and equal
`triple` field. -/
def Target.beqImpl : Target → Target → Bool
  | .BuiltIn a, .BuiltIn b => a == b
  | .Custom a, .Custom b => a == b
  | _, _ => false

/-- The data the `#[derive(Hash)]` implementation for `Target` feeds to
the hasher: the variant discriminant, then the `triple` field. Two
targets hash identically exactly when their hash inputs coincide. -/
def Target.hashInput : Target → Nat × String
  | .BuiltIn t => (0, t)
  | .Custom t => (1, t)

/-- `Target::is_apple` (`src/main.rs` lines 152-154). -/
def Target.is_apple (t : Target) : Bool := scontains t.triple "apple"

/-- `Target::is_bare_metal` (`src/main.rs` lines 156-158). -/
def Target.is_bare_metal (t : Target) : Bool := scontains t.triple "thumb"

/-- `Target::is_builtin` (`src/main.rs` lines 160-165). -/
def Target.is_builtin : Target → Bool
  | .BuiltIn _ => true
  | .Custom _ => false

/-- `Target::is_bsd` (`src/main.rs` lines 167-169). -/
def Target.is_bsd (t : Target) : Bool :=
  scontains t.triple "bsd" || scontains t.triple "dragonfly"

/-- `Target::is_solaris` (`src/main.rs` lines 171-173). -/
def Target.is_solaris (t : Target) : Bool := scontains t.triple "solaris"

/-- `Target::is_android` (`src/main.rs` lines 175-177). -/
def Target.is_android (t : Target) : Bool := scontains t.triple "android"

/-- `Target::is_emscripten` (`src/main.rs` lines 179-181). -/
def Target.is_emscripten (t : Target) : Bool := scontains t.triple "emscripten"

/-- `Target::is_linux` (`src/main.rs` lines 183-185). -/
def Target.is_linux (t : Target) : Bool :=
  scontains t.triple "linux" && !t.is_android

/-- `Target::is_windows` (`src/main.rs` lines 187-189). -/
def Target.is_windows (t : Target) : Bool := scontains t.triple "windows"

/-- `Target::needs_docker` (`src/main.rs` lines 191-201). -/
def Target.needs_docker (t : Target) : Bool :=
  t.is_linux || t.is_android || t.is_bare_metal || t.is_bsd || t.is_solaris
    || !t.is_builtin || t.is_windows || t.is_emscripten || t.is_apple

/-- `Target::from(triple, target_list)` (`src/main.rs` lines 226-234):
`BuiltIn` iff the compiler's target list contains the triple. The
`TargetList` collaborator (module `rustc`, not part of the core sources)
is modelled as the list of builtin triples with its `contains` test. -/
def Target.ofTriple (triple : String) (target_list : List String) : Target :=
  if target_list.contains triple then .BuiltIn triple else .Custom triple

/-- The per-host-family legacy policy table: the `Ok("0.2.1")` arm of
`Host::is_supported` (`src/main.rs` lines 68-80), named separately so the
theorems can say which table the legacy toggle selects. -/
def legacy_policy (h : Host) (target : Option Target) : Bool :=
  match h with
  | .X86_64AppleDarwin | .Aarch64AppleDarwin =>
      (target.map Target.needs_docker).getD false
  | .X86_64UnknownLinuxGnu | .Aarch64UnknownLinuxGnu
  | .X86_64UnknownLinuxMusl | .Aarch64UnknownLinuxMusl =>
      (target.map Target.needs_docker).getD true
  | .X86_64PcWindowsMsvc =>
      (target.map (fun t =>
        !(t.triple == Host.X86_64PcWindowsMsvc.triple) && t.needs_docker)).getD false
  | .Other _ => false

/-- `Host::is_supported` (`src/main.rs` lines 61-93). The read of the
`CROSS_COMPATIBILITY_VERSION` environment variable is modelled as the
explicit parameter `compat` (`none` models an absent variable, matching
the code's `Err` arm joining the catch-all). -/
def Host.is_supported (h : Host) (compat : Option String) (target : Option Target) : Bool :=
  match compat with
  | some "0.2.1" =>
    match h with
    | .X86_64AppleDarwin | .Aarch64AppleDarwin =>
        (target.map Target.needs_docker).getD false
    | .X86_64UnknownLinuxGnu | .Aarch64UnknownLinuxGnu
    | .X86_64UnknownLinuxMusl | .Aarch64UnknownLinuxMusl =>
        (target.map Target.needs_docker).getD true
    | .X86_64PcWindowsMsvc =>
        (target.map (fun t =>
          !(t.triple == Host.X86_64PcWindowsMsvc.triple) && t.needs_docker)).getD false
    | .Other _ => false
  | _ => (target.map Target.needs_docker).getD false

/-- `Subcommand` enum from `src/cargo.rs` lines 9-22. -/
inductive Subcommand where
  | Build
  | Check
  | Doc
  | Other
  | Run
  | Rustc
  | Test
  | Bench
  | Deb
  | Clippy
  | Metadata
deriving DecidableEq

/-- `Subcommand::needs_docker` (`src/cargo.rs` lines 25-27). -/
def Subcommand.needs_docker : Subcommand → Bool
  | .Other => false
  | _ => true

/-- `Subcommand::needs_interpreter` (`src/cargo.rs` lines 29-31). -/
def Subcommand.needs_interpreter : Subcommand → Bool
  | .Run | .Test | .Bench => true
  | _ => false

/-- `Subcommand::needs_target_in_command` (`src/cargo.rs` lines 33-35). -/
def Subcommand.needs_target_in_command : Subcommand → Bool
  | .Metadata => false
  | _ => true

/-- `impl From<&str> for Subcommand` (`src/cargo.rs` lines 38-54). -/
def Subcommand.ofStr (s : String) : Subcommand :=
  if s = "b" ∨ s = "build" then .Build
  else if s = "c" ∨ s = "check" then .Check
  else if s = "doc" then .Doc
  else if s = "r" ∨ s = "run" then .Run
  else if s = "rustc" then .Rustc
  else if s = "t" ∨ s = "test" then .Test
  else if s = "bench" then .Bench
  else if s = "deb" then .Deb
  else if s = "clippy" then .Clippy
  else if s = "metadata" then .Metadata
  else .Other

/-- `Package` struct from `src/cargo.rs` lines 77-82. The manifest path
is modelled as its list of path components. -/
structure Package where
  id : String
  manifest_path : List String
  source : Option String
deriving DecidableEq

/-- Model of `std::path::Path::parent`: drop the final component;
an empty path has no parent. -/
def pathParent (l : List String) : Option (List String) :=
  match l with
  | [] => none
  | _ => some l.dropLast

/-- `Package::crate_path` (`src/cargo.rs` lines 84-94): the manifest's
parent directory when the package has no source indicator, else `None`. -/
def Package.crate_path (p : Package) : Option (List String) :=
  if p.source.isNone then pathParent p.manifest_path else none

/-- `CargoMetadata` struct from `src/cargo.rs` lines 56-62. -/
structure CargoMetadata where
  workspace_root : List String
  target_directory : List String
  packages : List Package
  workspace_members : List String
deriving DecidableEq

/-- `CargoMetadata::non_workspace_members` (`src/cargo.rs` lines 65-69). -/
def CargoMetadata.non_workspace_members (m : CargoMetadata) : List Package :=
  m.packages.filter fun p => !(m.workspace_members.any fun w => w == p.id)

/-- `CargoMetadata::path_dependencies` (`src/cargo.rs` lines 71-74). -/
def CargoMetadata.path_dependencies (m : CargoMetadata) : List (List String) :=
  m.non_workspace_members.filterMap Package.crate_path

/-- Rust `[T]::join(sep)` on character lists. -/
def joinSep (sep : List Char) : List (List Char) → List Char
  | [] => []
  | [x] => x
  | x :: y :: ys => x ++ sep ++ joinSep sep (y :: ys)

/-- Rust `str::splitn(2, c)`: split at the first occurrence of `c` only,
yielding one or two pieces (the second keeps any later occurrences). -/
def splitn2 (c : Char) : List Char → List (List Char)
  | [] => [[]]
  | x :: xs =>
    if x = c then [[], xs]
    else
      match splitn2 c xs with
      | [] => [[x]]
      | y :: ys => (x :: y) :: ys

/-- Rust `str::split(c)`: split at every occurrence of `c`. -/
def splitAll (c : Char) : List Char → List (List Char)
  | [] => [[]]
  | x :: xs =>
    if x = c then [] :: splitAll c xs
    else
      match splitAll c xs with
      | [] => [[x]]
      | y :: ys => (x :: y) :: ys

/-- Toolchain identifier resolution from `src/main.rs` lines 298-307:
with a requested channel, `[channel]` chained with
`default_toolchain.splitn(2, '-').skip(1)`, joined with `"-"`;
with no request, the default identifier unchanged. -/
def toolchain_of (channel : Option (List Char)) (default_toolchain : List Char) : List Char :=
  match channel with
  | some c => joinSep ['-'] (c :: (splitn2 '-' default_toolchain).drop 1)
  | none => default_toolchain

/-- The claim's description of channel substitution: the requested
channel hyphen-joined with every hyphen-delimited segment of the default
identifier after its own first segment. Stated from the spec's words, to
be compared with `toolchain_of`. -/
def toolchain_of_claim (c : List Char) (default_toolchain : List Char) : List Char :=
  joinSep ['-'] (c :: (splitAll '-' default_toolchain).drop 1)

/-- The argument-stripping loop from `src/main.rs` lines 356-367: drop
every `"--target"` together with the following argument, drop every
argument starting with `"--target="`, keep everything else. -/
def strip_target_args : List String → List String
  | [] => []
  | a :: rest =>
    if a = "--target" then
      match rest with
      | [] => []
      | _ :: rest2 => strip_target_args rest2
    else if sstartsWith a "--target=" then strip_target_args rest
    else a :: strip_target_args rest

/-- The `filtered_args` computation from `src/main.rs` lines 352-376:
strip the target flag when the subcommand does not want it in the
command; otherwise append `"--target" triple` when no argument starts
with `"--target"`; otherwise leave the list unchanged. -/
def filtered_args (subcommand : Option Subcommand) (all : List String) (triple : String) :
    List String :=
  if (subcommand.map fun s => !s.needs_target_in_command).getD false then
    strip_target_args all
  else if !(all.any fun a => sstartsWith a "--target") then
    all ++ ["--target", triple]
  else
    all

/-- The claim's notion of "a target flag is already present": some
argument is exactly `"--target"` (space-separated form) or starts with
`"--target="` (equals-joined form). Stated from the spec's words, to be
compared with the prefix test the code uses. -/
def has_target_flag (all : List String) : Bool :=
  all.any fun a => a == "--target" || sstartsWith a "--target="

/-- The fields of the parsed CLI arguments (`cli::Args`) that the `run`
function consumes (`src/main.rs` lines 264-408); the `cli` module is an
out-of-scope collaborator. -/
structure Args where
  all : List String
  subcommand : Option Subcommand
  channel : Option String
  target : Option Target

/-- Oracles for the external collaborators consumed by `run`
(`src/main.rs` lines 264-408): the compiler's target list and host, the
environment, project metadata, configuration, the default toolchain name
read from the sysroot, container-image resolution, and the exit statuses
of the two executors. Toolchain-manager installs are modelled as
succeeding (their failures abort the run before the stages verified
here); `available_targets_contains` models
`available_targets.contains(&target)`. -/
structure RunEnv where
  target_list : List String
  metadata : Option CargoMetadata
  host : Host
  compat : Option String
  config_target : Option Target
  config_xargo : Option Bool
  available_targets_contains : Bool
  default_toolchain : Option String
  image : Except String Unit
  docker_run_status : Int
  cargo_run_status : List String → Int

/-- Which executor a run invokes, and with what. The container path
(`docker::run`, `src/main.rs` lines 391-402) receives the rewritten
argument list, the resolved toolchain (via the sysroot file name) and the
`uses_xargo` flag; the pass-through path (`cargo::run`,
`src/cargo.rs` lines 149-151) receives an argument list verbatim. -/
inductive Dispatch where
  | docker (args : List String) (toolchain : String) (uses_xargo : Bool)
  | cargo (args : List String)
deriving DecidableEq

/-- Observable outcome of a completed run: whether the image-resolution
warning was printed, which executor ran with which data, and the exit
status returned. -/
structure RunOut where
  warned_image : Bool
  dispatch : Dispatch
  status : Int
deriving DecidableEq

/-- Target resolution from `src/main.rs` lines 287-290: explicit
`--target` argument, else the configuration's target, else the host
triple classified against the target list. -/
def resolved_target (env : RunEnv) (args : Args) : Target :=
  ((args.target.orElse fun _ => env.config_target).getD
    (Target.ofTriple env.host.triple env.target_list))

/-- The decision engine `run` (`src/main.rs` lines 264-408), modelled
over the collaborator oracles in `RunEnv`. Printing, the version banner,
`confusable_target`, the toolchain/component install calls and emulation
registration are collaborator side effects that do not alter the
dispatch, argument lists or exit status and are not recorded. -/
def run (env : RunEnv) (args : Args) : Except String RunOut :=
  match env.metadata with
  | none => .ok ⟨false, .cargo args.all, env.cargo_run_status args.all⟩
  | some _ =>
    let target := resolved_target env args
    if env.host.is_supported env.compat (some target) then
      match env.default_toolchain with
      | none => .error "couldn't get toolchain name"
      | some default_toolchain =>
        let toolchain : String :=
          match args.channel with
          | some channel => ⟨toolchain_of (some channel.data) default_toolchain.data⟩
          | none => default_toolchain
        let uses_xargo :=
          env.config_xargo.getD (!target.is_builtin || !env.available_targets_contains)
        let image_exists :=
          match env.image with
          | .ok _ => true
          | .error _ => false
        let fargs := filtered_args args.subcommand args.all target.triple
        if image_exists && target.needs_docker
            && ((args.subcommand.map Subcommand.needs_docker).getD false) then
          .ok ⟨false, .docker fargs toolchain uses_xargo, env.docker_run_status⟩
        else
          .ok ⟨!image_exists, .cargo args.all, env.cargo_run_status args.all⟩
    else
      .ok ⟨false, .cargo args.all, env.cargo_run_status args.all⟩

/-- The claim-side cleanliness predicate on argument lists: no argument
is the space-separated target flag and none carries the equals-joined
form. -/
def argsClean (xs : List String) : Bool :=
  xs.all fun a => !(a == "--target") && !(sstartsWith a "--target=")

/-- C1: with the legacy-compatibility variable absent or holding any
value other than `"0.2.1"`, `is_supported` with a target returns exactly
`needs_docker` of the target (the host's identity is irrelevant) and
returns `false` without a target; with the variable equal to `"0.2.1"`,
the per-host-family legacy policy table is used instead. -/
theorem is_supported_policy_selection :
    (∀ (compat : Option String) (h : Host) (t : Target), compat ≠ some "0.2.1" →
        h.is_supported compat (some t) = t.needs_docker
      ∧ h.is_supported compat none = false)
  ∧ (∀ (h : Host) (target : Option Target),
        h.is_supported (some "0.2.1") target = legacy_policy h target) := by
  constructor
  · intro compat h t hne
    cases compat with
    | none => exact ⟨rfl, rfl⟩
    | some s =>
      have hs : s ≠ "0.2.1" := fun hq => hne (by rw [hq])
      refine ⟨?_, ?_⟩
      all_goals
        unfold Host.is_supported
        split
        · rename_i heq
          exact absurd (Option.some.inj heq) hs
        · rfl
  · intro h target
    cases h <;> rfl

theorem is_supported_policy_selection_witness :
    Host.X86_64UnknownLinuxGnu.is_supported none
        (some (Target.BuiltIn "aarch64-unknown-linux-gnu")) = true
  ∧ Host.X86_64UnknownLinuxGnu.is_supported none none = false := by
  have h := is_supported_policy_selection.1 none Host.X86_64UnknownLinuxGnu
    (Target.BuiltIn "aarch64-unknown-linux-gnu") (by decide)
  exact ⟨by rw [h.1]; decide, h.2⟩

/-- C2: `needs_docker` holds exactly when the triple contains `"linux"`
but not `"android"`, or contains `"android"`, `"bsd"`, `"dragonfly"`,
`"solaris"`, `"thumb"`, `"windows"`, `"emscripten"` or `"apple"`
(case-sensitive substring tests), or the target is the `Custom`
(non-builtin) variant. -/
theorem needs_docker_characterization (t : Cross.Target) :
    t.needs_docker = true ↔
      ((scontains t.triple "linux" = true ∧ ¬scontains t.triple "android" = true)
        ∨ scontains t.triple "android" = true
        ∨ (scontains t.triple "bsd" = true ∨ scontains t.triple "dragonfly" = true)
        ∨ scontains t.triple "solaris" = true
        ∨ scontains t.triple "thumb" = true
        ∨ scontains t.triple "windows" = true
        ∨ scontains t.triple "emscripten" = true
        ∨ scontains t.triple "apple" = true
        ∨ t.is_builtin = false) := by
  simp only [Target.needs_docker, Target.is_linux, Target.is_android, Target.is_bare_metal,
    Target.is_bsd, Target.is_solaris, Target.is_windows, Target.is_emscripten,
    Target.is_apple, Bool.or_eq_true, Bool.and_eq_true, Bool.not_eq_true',
    Bool.not_eq_true]
  tauto

/-- C6 counterexample: a `BuiltIn` target and a `Custom` target carrying
the same triple string compare unequal under the derived equality and
feed different inputs to the derived hash. -/
theorem target_eq_counterexample :
    (Target.BuiltIn "x86_64-unknown-linux-gnu").triple
        = (Target.Custom "x86_64-unknown-linux-gnu").triple
  ∧ Target.beqImpl (Target.BuiltIn "x86_64-unknown-linux-gnu")
        (Target.Custom "x86_64-unknown-linux-gnu") = false
  ∧ Target.BuiltIn "x86_64-unknown-linux-gnu" ≠ Target.Custom "x86_64-unknown-linux-gnu"
  ∧ Target.hashInput (Target.BuiltIn "x86_64-unknown-linux-gnu")
        ≠ Target.hashInput (Target.Custom "x86_64-unknown-linux-gnu") := by
  refine ⟨rfl, rfl, ?_, ?_⟩ <;> decide

/-- C6 (amended): equality and hashing of `Target` are structural, by
variant and triple: two targets compare equal under the derived equality
exactly when they are the same variant with the same triple, and the
derived hash inputs coincide exactly under the same condition; hence
`BuiltIn` and `Custom` with the same triple compare unequal. -/
theorem target_eq_structural (t u : Cross.Target) :
    (Target.beqImpl t u = true ↔ t = u)
  ∧ (Target.hashInput t = Target.hashInput u ↔ t = u) := by
  cases t <;> cases u <;>
    simp [Target.beqImpl, Target.hashInput]

set_option maxHeartbeats 2000000 in
/-- C9: subcommand classification is total on strings; each short alias
classifies equal to its canonical spelling, each of
doc/rustc/bench/deb/clippy/metadata matches only its exact spelling, and
every unmatched string yields `Other`. -/
theorem classify_spec :
    (Subcommand.ofStr "b" = Subcommand.ofStr "build" ∧ Subcommand.ofStr "build" = .Build)
  ∧ (Subcommand.ofStr "c" = Subcommand.ofStr "check" ∧ Subcommand.ofStr "check" = .Check)
  ∧ (Subcommand.ofStr "r" = Subcommand.ofStr "run" ∧ Subcommand.ofStr "run" = .Run)
  ∧ (Subcommand.ofStr "t" = Subcommand.ofStr "test" ∧ Subcommand.ofStr "test" = .Test)
  ∧ (∀ s, Subcommand.ofStr s = .Doc ↔ s = "doc")
  ∧ (∀ s, Subcommand.ofStr s = .Rustc ↔ s = "rustc")
  ∧ (∀ s, Subcommand.ofStr s = .Bench ↔ s = "bench")
  ∧ (∀ s, Subcommand.ofStr s = .Deb ↔ s = "deb")
  ∧ (∀ s, Subcommand.ofStr s = .Clippy ↔ s = "clippy")
  ∧ (∀ s, Subcommand.ofStr s = .Metadata ↔ s = "metadata")
  ∧ (∀ s, s ∉ ["b", "build", "c", "check", "doc", "r", "run", "rustc", "t", "test",
        "bench", "deb", "clippy", "metadata"] → Subcommand.ofStr s = .Other) := by
  refine ⟨⟨by decide, by decide⟩, ⟨by decide, by decide⟩, ⟨by decide, by decide⟩,
    ⟨by decide, by decide⟩, ?_, ?_, ?_, ?_, ?_, ?_, ?_⟩
  rotate_right
  · intro s hs
    simp only [List.mem_cons, List.not_mem_nil, or_false, not_or] at hs
    unfold Subcommand.ofStr
    split_ifs <;> first | rfl | tauto
  all_goals
    intro s
    constructor
    · intro h
      unfold Subcommand.ofStr at h
      split_ifs at h <;> first | assumption | exact absurd h (by decide)
    · intro h
      subst h
      decide

theorem classify_spec_witness : Subcommand.ofStr "frobnicate" = .Other := by
  exact classify_spec.2.2.2.2.2.2.2.2.2.2 "frobnicate" (by decide)

set_option maxHeartbeats 2000000 in
/-- C10: parsing a string into a `Host` and reading back its triple is
the identity: the seven recognized triples map to their dedicated
variants, every other string maps to `Other`, and
`(Host.ofStr s).triple = s` holds for all strings. -/
theorem host_round_trip :
    (Host.ofStr "x86_64-apple-darwin" = .X86_64AppleDarwin
      ∧ Host.ofStr "aarch64-apple-darwin" = .Aarch64AppleDarwin
      ∧ Host.ofStr "x86_64-unknown-linux-gnu" = .X86_64UnknownLinuxGnu
      ∧ Host.ofStr "aarch64-unknown-linux-gnu" = .Aarch64UnknownLinuxGnu
      ∧ Host.ofStr "x86_64-unknown-linux-musl" = .X86_64UnknownLinuxMusl
      ∧ Host.ofStr "aarch64-unknown-linux-musl" = .Aarch64UnknownLinuxMusl
      ∧ Host.ofStr "x86_64-pc-windows-msvc" = .X86_64PcWindowsMsvc)
  ∧ (∀ s, s ∉ ["x86_64-apple-darwin", "aarch64-apple-darwin", "x86_64-unknown-linux-gnu",
        "aarch64-unknown-linux-gnu", "x86_64-unknown-linux-musl",
        "aarch64-unknown-linux-musl", "x86_64-pc-windows-msvc"] →
        Host.ofStr s = .Other s)
  ∧ (∀ s, (Host.ofStr s).triple = s) := by
  refine ⟨⟨by decide, by decide, by decide, by decide, by decide, by decide, by decide⟩,
    ?_, ?_⟩
  · intro s hs
    simp only [List.mem_cons, List.not_mem_nil, or_false, not_or] at hs
    unfold Host.ofStr
    split_ifs <;> first | rfl | tauto
  · intro s
    unfold Host.ofStr
    split_ifs <;> first | rfl | (rename_i h; subst h; rfl)

theorem host_round_trip_witness :
    Host.ofStr "riscv64gc-unknown-linux-gnu" = .Other "riscv64gc-unknown-linux-gnu" := by
  exact host_round_trip.2.1 "riscv64gc-unknown-linux-gnu" (by decide)

theorem pathParent_eq_some (l : List String) (h : l ≠ []) :
    pathParent l = some l.dropLast := by
  cases l with
  | nil => exact absurd rfl h
  | cons x xs => rfl

theorem filterMap_crate_path (W : List String) (l : List Package)
    (hl : ∀ p ∈ l, p.manifest_path ≠ []) :
    (l.filter fun p => !(W.any fun w => w == p.id)).filterMap Package.crate_path
      = (l.filter fun p => !(W.any fun w => w == p.id) && p.source.isNone).map
          fun p => p.manifest_path.dropLast := by
  induction l with
  | nil => rfl
  | cons p l ih =>
    have hp : p.manifest_path ≠ [] := hl p (List.mem_cons_self p l)
    have hrest : ∀ q ∈ l, q.manifest_path ≠ [] := fun q hq => hl q (List.mem_cons_of_mem p hq)
    by_cases hm : (W.any fun w => w == p.id) = true
    · simp [List.filter_cons, hm, ih hrest]
    · rw [Bool.not_eq_true] at hm
      cases hsrc : p.source with
      | none =>
        simp [List.filter_cons, hm, Package.crate_path, hsrc,
          pathParent_eq_some _ hp, ih hrest]
      | some v =>
        simp [List.filter_cons, hm, Package.crate_path, hsrc, ih hrest]

/-- C7: `path_dependencies` yields the manifest-parent directory of
exactly those packages absent from the workspace-member identifier list
and carrying no source indicator, in package-list order (every
workspace member is excluded regardless of its source indicator, and
every package with a non-absent source indicator is excluded). The
hypothesis states that each package's manifest path is nonempty, so its
parent directory exists. -/
theorem path_dependencies_spec (m : CargoMetadata)
    (hm : ∀ p ∈ m.packages, p.manifest_path ≠ []) :
    m.path_dependencies =
      (m.packages.filter fun p =>
          !(m.workspace_members.any fun w => w == p.id) && p.source.isNone).map
        fun p => p.manifest_path.dropLast := by
  unfold CargoMetadata.path_dependencies CargoMetadata.non_workspace_members
  exact filterMap_crate_path m.workspace_members m.packages hm

theorem path_dependencies_spec_witness :
    (CargoMetadata.mk ["ws"] ["tgt"]
      [⟨"pkg-a", ["ws", "a", "Cargo.toml"], none⟩,
       ⟨"pkg-b", ["deps", "b", "Cargo.toml"], none⟩,
       ⟨"pkg-c", ["reg", "c", "Cargo.toml"], some "registry"⟩]
      ["pkg-a"]).path_dependencies = [["deps", "b"]] := by
  rw [path_dependencies_spec _ (by decide)]
  decide

theorem splitAll_ne_nil (c : Char) (l : List Char) : splitAll c l ≠ [] := by
  cases l with
  | nil => simp [splitAll]
  | cons x xs =>
    simp only [splitAll]
    split
    · simp
    · split <;> simp

theorem splitn2_ne_nil (c : Char) (l : List Char) : splitn2 c l ≠ [] := by
  cases l with
  | nil => simp [splitn2]
  | cons x xs =>
    simp only [splitn2]
    split
    · simp
    · split <;> simp

theorem joinSep_splitAll (c : Char) (l : List Char) :
    joinSep [c] (splitAll c l) = l := by
  induction l with
  | nil => rfl
  | cons x xs ih =>
    simp only [splitAll]
    split
    · rename_i hx
      rcases h : splitAll c xs with _ | ⟨y, ys⟩
      · exact absurd h (splitAll_ne_nil c xs)
      · rw [h] at ih
        show [] ++ [c] ++ joinSep [c] (y :: ys) = x :: xs
        rw [ih, hx]
        rfl
    · rename_i hx
      rcases h : splitAll c xs with _ | ⟨y, ys⟩
      · exact absurd h (splitAll_ne_nil c xs)
      · rw [h] at ih
        cases ys with
        | nil =>
          show x :: joinSep [c] [y] = x :: xs
          rw [ih]
        | cons z zs =>
          show (x :: y) ++ [c] ++ joinSep [c] (z :: zs) = x :: xs
          rw [← ih]
          rfl

theorem joinSep_splitn2_drop (c : Char) (chan l : List Char) :
    joinSep [c] (chan :: (splitn2 c l).drop 1)
      = joinSep [c] (chan :: (splitAll c l).drop 1) := by
  induction l generalizing chan with
  | nil => rfl
  | cons x xs ih =>
    simp only [splitn2, splitAll]
    split
    · rcases h : splitAll c xs with _ | ⟨y, ys⟩
      · exact absurd h (splitAll_ne_nil c xs)
      · have h2 := joinSep_splitAll c xs
        rw [h] at h2
        show chan ++ [c] ++ xs = chan ++ [c] ++ joinSep [c] (y :: ys)
        rw [h2]
    · rcases h1 : splitn2 c xs with _ | ⟨y1, ys1⟩
      · exact absurd h1 (splitn2_ne_nil c xs)
      · rcases h2 : splitAll c xs with _ | ⟨y2, ys2⟩
        · exact absurd h2 (splitAll_ne_nil c xs)
        · show joinSep [c] (chan :: ys1) = joinSep [c] (chan :: ys2)
          have hih := ih chan
          rw [h1, h2] at hih
          simpa using hih

/-- C8: with a requested channel override, the resolved toolchain
identifier equals the requested channel hyphen-joined with every
hyphen-delimited segment of the default identifier after its own first
segment (substituting only the channel component and preserving
date/host suffixes); with no override, the resolved identifier is the
default identifier unchanged. -/
theorem toolchain_channel_substitution :
    (∀ c d : List Char, toolchain_of (some c) d = toolchain_of_claim c d)
  ∧ (∀ d : List Char, toolchain_of none d = d) :=
  ⟨fun c d => joinSep_splitn2_drop '-' c d, fun _ => rfl⟩

theorem isPrefixOf_append_self (l t : List Char) : l.isPrefixOf (l ++ t) = true := by
  induction l with
  | nil => simp [List.isPrefixOf]
  | cons x xs ih => simp [List.isPrefixOf, ih]

theorem sstartsWith_append (p v : String) : sstartsWith (p ++ v) p = true := by
  unfold sstartsWith
  rw [String.data_append]
  exact isPrefixOf_append_self p.data v.data

theorem append_ne_target (v : String) : ("--target=" ++ v) ≠ "--target" := by
  intro h
  have hlen := congrArg String.length h
  rw [String.length_append] at hlen
  have e1 : ("--target=" : String).length = 9 := rfl
  have e2 : ("--target" : String).length = 8 := rfl
  rw [e1, e2] at hlen
  omega

theorem argsClean_cons (a : String) (xs : List String) (h : argsClean (a :: xs) = true) :
    ¬a = "--target" ∧ sstartsWith a "--target=" = false ∧ argsClean xs = true := by
  simp only [argsClean, List.all_cons, Bool.and_eq_true, Bool.not_eq_true',
    beq_eq_false_iff_ne, ne_eq] at h
  exact ⟨h.1.1, h.1.2, h.2⟩

theorem strip_cons_clean (a : String) (rest : List String)
    (h1 : ¬a = "--target") (h2 : sstartsWith a "--target=" = false) :
    strip_target_args (a :: rest) = a :: strip_target_args rest := by
  rw [strip_target_args.eq_def]
  show (if a = "--target" then
      match rest with
      | [] => []
      | _ :: rest2 => strip_target_args rest2
    else if sstartsWith a "--target=" then strip_target_args rest
    else a :: strip_target_args rest) = a :: strip_target_args rest
  rw [if_neg h1, if_neg (by simp [h2])]

theorem strip_cons_target (v : String) (ys : List String) :
    strip_target_args ("--target" :: v :: ys) = strip_target_args ys := rfl

theorem strip_cons_eqform (v : String) (ys : List String) :
    strip_target_args (("--target=" ++ v) :: ys) = strip_target_args ys := by
  rw [strip_target_args.eq_def]
  show (if ("--target=" ++ v) = "--target" then
      match ys with
      | [] => []
      | _ :: rest2 => strip_target_args rest2
    else if sstartsWith ("--target=" ++ v) "--target=" then strip_target_args ys
    else ("--target=" ++ v) :: strip_target_args ys) = strip_target_args ys
  rw [if_neg (append_ne_target v), if_pos (sstartsWith_append "--target=" v)]

theorem strip_target_clean (xs : List String) (h : argsClean xs = true) :
    strip_target_args xs = xs := by
  induction xs with
  | nil => rfl
  | cons a xs ih =>
    obtain ⟨h1, h2, h3⟩ := argsClean_cons a xs h
    rw [strip_cons_clean a xs h1 h2, ih h3]

theorem strip_target_pair (xs : List String) (v : String) (ys : List String)
    (h : argsClean xs = true) :
    strip_target_args (xs ++ "--target" :: v :: ys) = xs ++ strip_target_args ys := by
  induction xs with
  | nil => simpa using strip_cons_target v ys
  | cons a xs ih =>
    obtain ⟨h1, h2, h3⟩ := argsClean_cons a xs h
    show strip_target_args (a :: (xs ++ "--target" :: v :: ys)) = a :: xs ++ strip_target_args ys
    rw [strip_cons_clean _ _ h1 h2, ih h3]
    rfl

theorem strip_target_eqform (xs : List String) (v : String) (ys : List String)
    (h : argsClean xs = true) :
    strip_target_args (xs ++ ("--target=" ++ v) :: ys) = xs ++ strip_target_args ys := by
  induction xs with
  | nil => simpa using strip_cons_eqform v ys
  | cons a xs ih =>
    obtain ⟨h1, h2, h3⟩ := argsClean_cons a xs h
    show strip_target_args (a :: (xs ++ ("--target=" ++ v) :: ys)) = a :: xs ++ strip_target_args ys
    rw [strip_cons_clean _ _ h1 h2, ih h3]
    rfl

/-- C5: when the subcommand does not want the target flag in the command,
the rewrite is the stripping loop, and that loop removes every occurrence
of the target flag and its value in both the space-separated form
`["--target", v]` and the equals-joined form `["--target=" ++ v]`, while
leaving all other arguments untouched and in their original relative
order (`argsClean` says a list contains no target-flag argument of either
form). -/
theorem strip_both_forms :
    (∀ xs : List String, argsClean xs = true → strip_target_args xs = xs)
  ∧ (∀ (xs : List String) (v : String) (ys : List String), argsClean xs = true →
      strip_target_args (xs ++ "--target" :: v :: ys) = xs ++ strip_target_args ys)
  ∧ (∀ (xs : List String) (v : String) (ys : List String), argsClean xs = true →
      strip_target_args (xs ++ ("--target=" ++ v) :: ys) = xs ++ strip_target_args ys)
  ∧ (∀ (sub : Option Subcommand) (all : List String) (triple : String),
      (sub.map fun s => !s.needs_target_in_command).getD false = true →
      filtered_args sub all triple = strip_target_args all) := by
  refine ⟨strip_target_clean, strip_target_pair, strip_target_eqform, ?_⟩
  intro sub all triple hw
  unfold filtered_args
  rw [if_pos hw]

theorem strip_both_forms_witness :
    strip_target_args ["build", "--target", "foo", "--release"] = ["build", "--release"] := by
  have h := strip_both_forms.2.1 ["build"] "foo" ["--release"] (by decide)
  exact h

/-- C4 counterexample: the argument list `["--target-dir"]` contains no
target flag in either form, the build subcommand wants the target flag in
the command, yet the rewrite appends nothing: the code's presence test is
a prefix test on `"--target"`, which `"--target-dir"` satisfies. -/
theorem ensure_target_counterexample :
    has_target_flag ["--target-dir"] = false
  ∧ filtered_args (some Subcommand.Build) ["--target-dir"] "aarch64-unknown-linux-gnu"
      ≠ ["--target-dir", "--target", "aarch64-unknown-linux-gnu"]
  ∧ filtered_args (some Subcommand.Build) ["--target-dir"] "aarch64-unknown-linux-gnu"
      = ["--target-dir"] := by
  refine ⟨by decide, by decide, by decide⟩

/-- C4 (amended): when the subcommand wants the target flag in the
command, the rewrite appends exactly one `"--target"` followed by the
resolved target's triple at the end when no argument starting with
`"--target"` is present (this prefix test also matches arguments such as
`"--target-dir"`, not only the target flag); when some argument starting
with `"--target"` is present, the list is left untouched; hence the
ensure-present branch is idempotent. -/
theorem ensure_target_amended (sub : Option Subcommand) (all : List String) (triple : String)
    (hw : (sub.map fun s => !s.needs_target_in_command).getD false = false) :
    ((all.any fun a => sstartsWith a "--target") = false →
        filtered_args sub all triple = all ++ ["--target", triple])
  ∧ ((all.any fun a => sstartsWith a "--target") = true →
        filtered_args sub all triple = all)
  ∧ filtered_args sub (filtered_args sub all triple) triple
      = filtered_args sub all triple := by
  have happend : ∀ hany : (all.any fun a => sstartsWith a "--target") = false,
      filtered_args sub all triple = all ++ ["--target", triple] := by
    intro hany
    unfold filtered_args
    rw [if_neg (by simp [hw]), if_pos (by simp [hany])]
  have huntouched : ∀ hany : (all.any fun a => sstartsWith a "--target") = true,
      filtered_args sub all triple = all := by
    intro hany
    unfold filtered_args
    rw [if_neg (by simp [hw]), if_neg (by simp [hany])]
  refine ⟨happend, huntouched, ?_⟩
  by_cases hany : (all.any fun a => sstartsWith a "--target") = true
  · rw [huntouched hany, huntouched hany]
  · rw [Bool.not_eq_true] at hany
    rw [happend hany]
    have htrg : sstartsWith "--target" "--target" = true := by decide
    have h2 : ((all ++ ["--target", triple]).any fun a => sstartsWith a "--target") = true := by
      rw [List.any_append]
      simp [List.any_cons, htrg]
    unfold filtered_args
    rw [if_neg (by simp [hw]), if_neg (by simp [h2])]

theorem ensure_target_amended_witness :
    filtered_args (some Subcommand.Build) ["build"] "aarch64-unknown-linux-gnu"
      = ["build", "--target", "aarch64-unknown-linux-gnu"] :=
  (ensure_target_amended (some Subcommand.Build) ["build"] "aarch64-unknown-linux-gnu"
    (by decide)).1 (by decide)

/-- C3: when container-image resolution fails on a run that reaches the
image probe (metadata present, host/target pair supported, default
toolchain name available), the run does not abort: the image warning is
emitted, the pass-through executor is invoked with the user's original,
unmodified argument list, and its exit status is returned; conversely,
whenever a run dispatches to the container runtime, image resolution
succeeded and the argument list handed over is exactly the rewritten
one. -/
theorem image_failure_fallback :
    (∀ (env : RunEnv) (args : Args) (m : CargoMetadata) (dt e : String),
        env.metadata = some m →
        env.host.is_supported env.compat (some (resolved_target env args)) = true →
        env.default_toolchain = some dt →
        env.image = .error e →
        run env args = .ok ⟨true, .cargo args.all, env.cargo_run_status args.all⟩)
  ∧ (∀ (env : RunEnv) (args : Args) (out : RunOut) (fa : List String) (tc : String)
        (ux : Bool),
        run env args = .ok out → out.dispatch = .docker fa tc ux →
        env.image = .ok ()
          ∧ fa = filtered_args args.subcommand args.all (resolved_target env args).triple) := by
  constructor
  · intro env args m dt e hm hsup hdt himg
    unfold run
    rw [hm, hdt, himg]
    simp [hsup]
  · intro env args out fa tc ux hrun hdisp
    unfold run at hrun
    cases hm : env.metadata with
    | none =>
      rw [hm] at hrun
      have hout := Except.ok.inj hrun
      rw [← hout] at hdisp
      simp at hdisp
    | some m =>
      rw [hm] at hrun
      by_cases hsup : env.host.is_supported env.compat (some (resolved_target env args)) = true
      · cases hdt : env.default_toolchain with
        | none =>
          rw [hdt] at hrun
          simp [hsup] at hrun
        | some dt =>
          rw [hdt] at hrun
          cases himg : env.image with
          | error e =>
            rw [himg] at hrun
            simp [hsup] at hrun
            rw [← hrun] at hdisp
            simp at hdisp
          | ok u =>
            cases u
            rw [himg] at hrun
            by_cases hc : ((resolved_target env args).needs_docker
                && ((args.subcommand.map Subcommand.needs_docker).getD false)) = true
            · simp [hsup, hc] at hrun
              rw [← hrun] at hdisp
              simp only [Dispatch.docker.injEq] at hdisp
              exact ⟨rfl, hdisp.1.symm⟩
            · simp [hsup, hc] at hrun
              rw [← hrun] at hdisp
              simp at hdisp
      · simp [hsup] at hrun
        rw [← hrun] at hdisp
        simp at hdisp

theorem image_failure_fallback_witness :
    run ⟨["aarch64-unknown-linux-gnu"], some ⟨["ws"], ["tgt"], [], []⟩,
          .X86_64UnknownLinuxGnu, none, none, none, true,
          some "stable-x86_64-unknown-linux-gnu", .error "no image", 0, fun _ => 101⟩
        ⟨["build"], some .Build, none, some (.BuiltIn "aarch64-unknown-linux-gnu")⟩
      = .ok ⟨true, .cargo ["build"], 101⟩ :=
  image_failure_fallback.1 _ _ ⟨["ws"], ["tgt"], [], []⟩ "stable-x86_64-unknown-linux-gnu"
    "no image" rfl (by decide) rfl rfl

end Cross
